import Mathlib

/-!
Verification of the ai-survey-platform call-orchestration specification.

The repository's visible sources contain the Next.js frontend (dashboard,
login) and deployment material; the call orchestration engine (state machine,
scheduler, retry policy) is described by the specification only.  Definitions
for that engine are therefore modelled from the spec; the frontend definitions
are translated from src/frontend/app/page.tsx and the login page source.
-/

/-- Modelled from the spec: verdicts of the Clarification Oracle (section 4.2). -/
inductive Verdict where
  | accepted (answer : String)
  | needsClarification (followUp : String)
  | unintelligible
deriving DecidableEq

/-- Modelled from the spec: the Oracle either resolves to a verdict or fails
with OracleTimeout (section 4.2). -/
inductive OracleOutcome where
  | verdict (v : Verdict)
  | oracleTimeout
deriving DecidableEq

/-- Modelled from the spec: the state machine treats OracleTimeout as an
Unintelligible verdict for that turn (section 4.2). -/
def effectiveVerdict : OracleOutcome → Verdict
  | .verdict v => v
  | .oracleTimeout => .unintelligible

/-- Modelled from the spec: a survey question (section 3); only the id and
prompt matter to the call driver. -/
structure Question where
  id : Nat
  prompt : String
deriving DecidableEq

/-- Modelled from the spec: a TurnRecord (section 3): question id, ordered
clarification verdicts received, number of clarification rounds used, and the
final accepted answer, or none if the question was abandoned. -/
structure TurnRecord where
  questionId : Nat
  verdicts : List Verdict
  clarificationRounds : Nat
  finalAnswer : Option String
deriving DecidableEq

/-- Modelled from the spec: what the environment (contact plus Oracle) does on
one listen cycle: either a transcript is captured and the Oracle returns an
outcome, or the channel is lost (contact hang-up, ChannelClosed,
ProviderError). -/
inductive TurnEvent where
  | answer (o : OracleOutcome)
  | channelLost
deriving DecidableEq

/-- Modelled from the spec: outcome of running one question: a TurnRecord, or
the channel was lost during the question. -/
inductive TurnOutcome where
  | recorded (t : TurnRecord)
  | lost
deriving DecidableEq

/-- Modelled from the spec: coarse Gateway operations (section 4.1); the call
driver logs them so the channel-release discipline can be audited. -/
inductive GatewayOp where
  | dialOp
  | playOp (text : String)
  | listenOp
  | hangUpOp
deriving DecidableEq

/-- Number of hangUp invocations in a gateway log. -/
def hangUpCount (log : List GatewayOp) : Nat :=
  log.countP (fun op => decide (op = GatewayOp.hangUpOp))

/-- Modelled from the spec: the per-question loop of the Call State Machine
(section 4.3), bounded by maxClarificationRounds.  `remaining` is the round
budget still available, `prompt` the text to play before the next listen.
On Accepted the final answer is recorded with the rounds used so far; on
NeedsClarification the follow-up is played and we re-listen while budget
remains, one round per re-listen; Unintelligible consumes one round on
receipt and re-listens under the same budget rule; when the budget is
exhausted the question is recorded as abandoned (no final answer). -/
def askLoop (event : Nat → TurnEvent) (qid maxRounds : Nat) :
    Nat → String → Nat → List Verdict → TurnOutcome × List GatewayOp
  | 0, prompt, listenIdx, acc =>
    (match event listenIdx with
     | .channelLost => .lost
     | .answer o =>
       match effectiveVerdict o with
       | .accepted a =>
           .recorded ⟨qid, acc ++ [.accepted a], maxRounds, some a⟩
       | .needsClarification f =>
           .recorded ⟨qid, acc ++ [.needsClarification f], maxRounds, none⟩
       | .unintelligible =>
           .recorded ⟨qid, acc ++ [.unintelligible], maxRounds, none⟩,
     [.playOp prompt, .listenOp])
  | remaining + 1, prompt, listenIdx, acc =>
    match event listenIdx with
    | .channelLost => (.lost, [.playOp prompt, .listenOp])
    | .answer o =>
      match effectiveVerdict o with
      | .accepted a =>
          (.recorded ⟨qid, acc ++ [.accepted a], maxRounds - (remaining + 1), some a⟩,
           [.playOp prompt, .listenOp])
      | .needsClarification f =>
          let rest := askLoop event qid maxRounds remaining f (listenIdx + 1)
            (acc ++ [.needsClarification f])
          (rest.1, .playOp prompt :: .listenOp :: rest.2)
      | .unintelligible =>
          match remaining with
          | 0 =>
            (.recorded ⟨qid, acc ++ [.unintelligible], maxRounds, none⟩,
             [.playOp prompt, .listenOp])
          | r + 1 =>
            let rest := askLoop event qid maxRounds (r + 1) prompt (listenIdx + 1)
              (acc ++ [.unintelligible])
            (rest.1, .playOp prompt :: .listenOp :: rest.2)

/-- Modelled from the spec: run one question of the survey from a fresh
round budget. -/
def runQuestion (event : Nat → TurnEvent) (q : Question) (maxRounds : Nat) :
    TurnOutcome × List GatewayOp :=
  askLoop event q.id maxRounds maxRounds q.prompt 0 []

/-- Modelled from the spec: final status of a CallAttempt (section 3). -/
inductive CallStatus where
  | completed
  | noAnswer
  | busy
  | dropped
  | error
deriving DecidableEq

/-- Modelled from the spec: a finalized CallAttempt: ordered TurnRecords and
the final status (section 3). -/
structure CallAttempt where
  turns : List TurnRecord
  finalStatus : CallStatus
deriving DecidableEq

/-- Modelled from the spec: result of dialing (section 4.1). -/
inductive DialResult where
  | ok
  | noAnswer
  | busy
  | invalidNumber
  | providerError
deriving DecidableEq

/-- A CallAttempt together with the log of Gateway operations the driver
performed while producing it. -/
structure RunResult where
  attempt : CallAttempt
  gatewayLog : List GatewayOp
deriving DecidableEq

def closingText : String := "Thank you for your time. Goodbye."

def greetingText : String := "Hello, this is an automated survey call."

/-- Modelled from the spec: walk the remaining questions of the survey
(section 4.3 step 4).  After all questions the machine wraps up (closing
remark) and hangs up; if the channel is lost mid-survey the attempt is
finalized as dropped with whatever TurnRecords were captured, and the channel
is still hung up on the way out. -/
def runQuestionsGo (env : Nat → Nat → TurnEvent) (maxRounds : Nat) :
    List Question → Nat → CallAttempt × List GatewayOp
  | [], _ => (⟨[], .completed⟩, [.playOp closingText, .hangUpOp])
  | q :: rest, qIdx =>
    match runQuestion (env qIdx) q maxRounds with
    | (.recorded t, ops) =>
      let r := runQuestionsGo env maxRounds rest (qIdx + 1)
      (⟨t :: r.1.turns, r.1.finalStatus⟩, ops ++ r.2)
    | (.lost, ops) => (⟨[], .dropped⟩, ops ++ [.hangUpOp])

/-- Modelled from the spec: one full execution of the Call State Machine
against one contact (sections 4.3 and 7): dial, greet, run the questions,
and release the channel on every exit path; a failed dial opens no channel. -/
def runCall (env : Nat → Nat → TurnEvent) (dial : DialResult)
    (qs : List Question) (maxRounds : Nat) : RunResult :=
  match dial with
  | .ok =>
    let r := runQuestionsGo env maxRounds qs 0
    ⟨r.1, .dialOp :: .playOp greetingText :: r.2⟩
  | .noAnswer => ⟨⟨[], .noAnswer⟩, [.dialOp]⟩
  | .busy => ⟨⟨[], .busy⟩, [.dialOp]⟩
  | .invalidNumber => ⟨⟨[], .error⟩, [.dialOp]⟩
  | .providerError => ⟨⟨[], .error⟩, [.dialOp]⟩

/-- The coverage property claimed of TurnRecords: same order as the Survey's
Questions, no duplicates, no gaps (each question exactly once). -/
abbrev coversQuestions (qs : List Question) (ca : CallAttempt) : Prop :=
  ca.turns.map TurnRecord.questionId = qs.map Question.id

/-- Replace an OracleTimeout outcome by the verdict the state machine gives
it; channel loss is untouched. -/
def sanitizeEvent : TurnEvent → TurnEvent
  | .answer o => .answer (.verdict (effectiveVerdict o))
  | .channelLost => .channelLost

/-- The 3-question survey of the specification scenario (section 8). -/
def scenarioSurvey : List Question :=
  [⟨1, "Question one"⟩, ⟨2, "Question two"⟩, ⟨3, "Question three"⟩]

/-- The Oracle behaviour of the specification scenario: Accepted for Q1,
NeedsClarification then Accepted for Q2, Unintelligible twice for Q3. -/
def scenarioEnv : Nat → Nat → TurnEvent
  | 0, _ => .answer (.verdict (.accepted "Answer 1"))
  | 1, 0 => .answer (.verdict (.needsClarification "Could you repeat that please?"))
  | 1, _ => .answer (.verdict (.accepted "Answer 2"))
  | _, _ => .answer (.verdict .unintelligible)

/-- Modelled from the spec: status of a Contact (section 3). -/
inductive ContactStatus where
  | pending
  | inProgress
  | completed
  | failed
  | doNotCall
deriving DecidableEq

/-- Number of contacts currently in progress. -/
def countInProgress (cs : List ContactStatus) : Nat :=
  cs.countP (fun s => decide (s = ContactStatus.inProgress))

/-- Modelled from the spec: scheduler events (section 4.4): dispatching a
pending contact to a worker, and a worker finishing a contact with a
non-in-progress resulting status. -/
inductive SchedEvent where
  | dispatch (i : Nat)
  | finish (i : Nat) (r : ContactStatus)

/-- Modelled from the spec: one scheduling transition (section 4.4).  A
dispatch admits a pending contact only while pool capacity is unused
(admission control); otherwise the event has no effect.  A finish moves an
in-progress contact to a non-in-progress status. -/
def schedStep (maxConcurrentCalls : Nat) (cs : List ContactStatus) :
    SchedEvent → List ContactStatus
  | .dispatch i =>
    if cs.get? i = some ContactStatus.pending ∧
        countInProgress cs < maxConcurrentCalls then
      cs.set i ContactStatus.inProgress
    else cs
  | .finish i r =>
    if cs.get? i = some ContactStatus.inProgress ∧
        r ≠ ContactStatus.inProgress then
      cs.set i r
    else cs

/-- Modelled from the spec: a whole scheduling run is a fold of scheduling
transitions over the contact statuses. -/
def runSched (maxConcurrentCalls : Nat) (init : List ContactStatus)
    (evs : List SchedEvent) : List ContactStatus :=
  evs.foldl (schedStep maxConcurrentCalls) init

/-- Modelled from the spec: call-level outcome of one CallAttempt as seen by
the retry policy (sections 4.3 and 7): success, a transient failure that is
retried per policy, or InvalidNumber which flags the contact do-not-call. -/
inductive AttemptOutcome where
  | success
  | transient
  | invalidNumber
deriving DecidableEq

/-- Modelled from the spec: the retry-policy state of one Contact. -/
structure ContactState where
  status : ContactStatus
  attemptsMade : Nat
deriving DecidableEq

def initialContact : ContactState := ⟨.pending, 0⟩

/-- Modelled from the spec: the call-level failure policy for one Contact
(section 4.3).  A contact is dispatched only while pending and within the
maxCallAttempts budget; success completes it, InvalidNumber marks it
do-not-call, and a transient failure re-queues it as pending while budget
remains, otherwise settles it as failed. -/
def retryStep (maxCallAttempts : Nat) (c : ContactState) (o : AttemptOutcome) :
    ContactState :=
  if c.status = ContactStatus.pending ∧ c.attemptsMade < maxCallAttempts then
    match o with
    | .success => ⟨.completed, c.attemptsMade + 1⟩
    | .invalidNumber => ⟨.doNotCall, c.attemptsMade + 1⟩
    | .transient =>
      if c.attemptsMade + 1 < maxCallAttempts then ⟨.pending, c.attemptsMade + 1⟩
      else ⟨.failed, c.attemptsMade + 1⟩
  else c

/-- Modelled from the spec: the retry history of one Contact over a sequence
of attempt outcomes. -/
def runRetries (maxCallAttempts : Nat) (outcomes : List AttemptOutcome) :
    ContactState :=
  outcomes.foldl (retryStep maxCallAttempts) initialContact

/-- One entry of the hard-coded recentActivity list in
src/frontend/app/page.tsx. -/
structure ActivityItem where
  id : String
  type : String
  message : String
  timestamp : String
deriving DecidableEq

/-- The DashboardStats interface of src/frontend/app/page.tsx. -/
structure DashboardStats where
  totalSurveys : Nat
  activeSurveys : Nat
  totalContacts : Nat
  completedCalls : Nat
  responseRate : Rat
  recentActivity : List ActivityItem
deriving DecidableEq

/-- The mockStats object of src/frontend/app/page.tsx (lines 41 to 67). -/
def mockStats : DashboardStats :=
  { totalSurveys := 12
    activeSurveys := 5
    totalContacts := 1250
    completedCalls := 890
    responseRate := 71.2
    recentActivity :=
      [⟨"1", "survey", "New survey \"Customer Satisfaction 2024\" created",
        "2 hours ago"⟩,
       ⟨"2", "call", "Call completed with +91 98765 43210", "3 hours ago"⟩,
       ⟨"3", "upload", "Contact list uploaded for Survey #8", "5 hours ago"⟩] }

/-- The dashboard-stats query function of src/frontend/app/page.tsx (lines 69
to 83): return the response data, or mockStats if the GET request threw. -/
def dashboardStatsQuery (response : Except String DashboardStats) :
    DashboardStats :=
  match response with
  | .ok data => data
  | .error _ => mockStats

/-- A toast shown by the frontend. -/
inductive ToastMsg where
  | success (msg : String)
  | error (msg : String)
deriving DecidableEq

/-- The response body of a successful login POST, as used by
LoginPage.onSubmit. -/
structure LoginResponse where
  access_token : String
deriving DecidableEq

/-- The externally observable effects of one LoginPage.onSubmit run. -/
structure LoginEffects where
  storedToken : Option String
  navigatedTo : Option String
  toasts : List ToastMsg
  isLoading : Bool
deriving DecidableEq

/-- LoginPage.onSubmit from the login page source (lines 331 to 360):
on success store the access token, toast success and navigate home; on error
leave storage untouched and toast the error detail, falling back to the fixed
message; in both cases isLoading ends false. -/
def onSubmit (stored : Option String)
    (response : Except (Option String) LoginResponse) : LoginEffects :=
  match response with
  | .ok r =>
    { storedToken := some r.access_token
      navigatedTo := some "/"
      toasts := [.success "Login successful!"]
      isLoading := false }
  | .error detail =>
    { storedToken := stored
      navigatedTo := none
      toasts := [.error (detail.getD "Login failed. Please try again.")]
      isLoading := false }

/-- Result of the Dashboard mount effect of src/frontend/app/page.tsx
(lines 85 to 95). -/
structure MountEffects where
  isAuthenticated : Bool
  redirect : Option String
deriving DecidableEq

/-- The Dashboard mount effect: with a token present authentication is set,
otherwise the router is pushed to /login and the flag stays false. -/
def dashboardMountEffect (token : Option String) : MountEffects :=
  match token with
  | some _ => ⟨true, none⟩
  | none => ⟨false, some "/login"⟩

/-- What the Dashboard component renders. -/
inductive DashboardView where
  | loadingPlaceholder
  | dashboardContent
deriving DecidableEq

/-- The render guard of src/frontend/app/page.tsx (lines 127 to 129): an
unauthenticated Dashboard renders only the Loading placeholder. -/
def dashboardRender (isAuthenticated : Bool) : DashboardView :=
  if isAuthenticated then .dashboardContent else .loadingPlaceholder

theorem askLoop_spec (event : Nat → TurnEvent) (qid maxRounds : Nat) :
    ∀ (remaining : Nat) (prompt : String) (listenIdx : Nat) (acc : List Verdict),
      hangUpCount (askLoop event qid maxRounds remaining prompt listenIdx acc).2 = 0 ∧
      (∀ t, (askLoop event qid maxRounds remaining prompt listenIdx acc).1 = .recorded t →
        t.questionId = qid ∧ t.clarificationRounds ≤ maxRounds) := by
  intro remaining
  induction remaining using Nat.strong_induction_on with
  | _ remaining ih =>
    intro prompt listenIdx acc
    cases remaining with
    | zero =>
      cases h : event listenIdx with
      | channelLost => simp [askLoop.eq_1, h, hangUpCount]
      | answer o =>
        cases hv : effectiveVerdict o with
        | accepted a => simp [askLoop.eq_1, h, hv, hangUpCount]
        | needsClarification f => simp [askLoop.eq_1, h, hv, hangUpCount]
        | unintelligible => simp [askLoop.eq_1, h, hv, hangUpCount]
    | succ n =>
      cases n with
      | zero =>
        cases h : event listenIdx with
        | channelLost => simp [askLoop.eq_2, h, hangUpCount]
        | answer o =>
          cases hv : effectiveVerdict o with
          | accepted a => simp [askLoop.eq_2, h, hv, hangUpCount, Nat.sub_le]
          | needsClarification f =>
            have h2 := ih 0 (by omega) f (listenIdx + 1)
              (acc ++ [Verdict.needsClarification f])
            simp [askLoop.eq_2, h, hv, hangUpCount] at h2 ⊢
            exact h2
          | unintelligible => simp [askLoop.eq_2, h, hv, hangUpCount]
      | succ r =>
        cases h : event listenIdx with
        | channelLost => simp [askLoop.eq_3, h, hangUpCount]
        | answer o =>
          cases hv : effectiveVerdict o with
          | accepted a => simp [askLoop.eq_3, h, hv, hangUpCount, Nat.sub_le]
          | needsClarification f =>
            have h2 := ih (r + 1) (by omega) f (listenIdx + 1)
              (acc ++ [Verdict.needsClarification f])
            simp [askLoop.eq_3, h, hv, hangUpCount] at h2 ⊢
            exact h2
          | unintelligible =>
            have h2 := ih (r + 1) (by omega) prompt (listenIdx + 1)
              (acc ++ [Verdict.unintelligible])
            simp [askLoop.eq_3, h, hv, hangUpCount] at h2 ⊢
            exact h2


theorem hangUpCount_append (a b : List GatewayOp) :
    hangUpCount (a ++ b) = hangUpCount a + hangUpCount b := by
  simp [hangUpCount, List.countP_append]

theorem runQuestion_spec (event : Nat → TurnEvent) (q : Question) (m : Nat) :
    hangUpCount (runQuestion event q m).2 = 0 ∧
      (∀ t, (runQuestion event q m).1 = .recorded t →
        t.questionId = q.id ∧ t.clarificationRounds ≤ m) :=
  askLoop_spec event q.id m m q.prompt 0 []

theorem runQuestionsGo_spec(env : Nat → Nat → TurnEvent) (m : Nat) :
    ∀ (qs : List Question) (qIdx : Nat),
      hangUpCount (runQuestionsGo env m qs qIdx).2 = 1 ∧
      ((runQuestionsGo env m qs qIdx).1.finalStatus = CallStatus.completed →
        (runQuestionsGo env m qs qIdx).1.turns.map TurnRecord.questionId =
          qs.map Question.id) ∧
      (∃ rest, (runQuestionsGo env m qs qIdx).1.turns.map TurnRecord.questionId ++ rest
          = qs.map Question.id) ∧
      (∀ t, t ∈ (runQuestionsGo env m qs qIdx).1.turns → t.clarificationRounds ≤ m) := by
  intro qs
  induction qs with
  | nil =>
    intro qIdx
    exact ⟨by simp [runQuestionsGo, hangUpCount], by simp [runQuestionsGo],
      ⟨[], by simp [runQuestionsGo]⟩, by simp [runQuestionsGo]⟩
  | cons q rest ihq =>
    intro qIdx
    have hspec := runQuestion_spec (env qIdx) q m
    have ihr := ihq (qIdx + 1)
    cases hres : runQuestion (env qIdx) q m with
    | mk out ops =>
      rw [hres] at hspec
      cases out with
      | recorded t =>
        have hc0 : hangUpCount ops = 0 := hspec.1
        have htq := hspec.2 t rfl
        have hunf : runQuestionsGo env m (q :: rest) qIdx =
            (⟨t :: (runQuestionsGo env m rest (qIdx + 1)).1.turns,
              (runQuestionsGo env m rest (qIdx + 1)).1.finalStatus⟩,
             ops ++ (runQuestionsGo env m rest (qIdx + 1)).2) := by
          simp [runQuestionsGo, hres]
        refine ⟨?_, ?_, ?_, ?_⟩
        · rw [hunf]
          simp only [hangUpCount_append, hc0, ihr.1]
        · intro hc
          rw [hunf] at hc ⊢
          simp only [List.map_cons, htq.1] at *
          exact congrArg (q.id :: ·) (ihr.2.1 hc)
        · obtain ⟨k, hk⟩ := ihr.2.2.1
          refine ⟨k, ?_⟩
          rw [hunf]
          simp [htq.1, hk]
        · intro t2 ht2
          rw [hunf] at ht2
          simp only [List.mem_cons] at ht2
          cases ht2 with
          | inl h2 => subst h2; exact htq.2
          | inr h2 => exact ihr.2.2.2 t2 h2
      | lost =>
        have hc0 : hangUpCount ops = 0 := hspec.1
        have hunf : runQuestionsGo env m (q :: rest) qIdx =
            (⟨[], CallStatus.dropped⟩, ops ++ [GatewayOp.hangUpOp]) := by
          simp [runQuestionsGo, hres]
        refine ⟨?_, ?_, ⟨(q :: rest).map Question.id, ?_⟩, ?_⟩
        · rw [hunf]
          show hangUpCount (ops ++ [GatewayOp.hangUpOp]) = 1
          rw [hangUpCount_append, hc0]
          rfl
        · intro hc
          rw [hunf] at hc
          simp at hc
        · rw [hunf]
          simp
        · intro t2 ht2
          rw [hunf] at ht2
          simp at ht2

/-- C1 (amended): for every dispatched Contact whose CallAttempt finishes
with status completed, the TurnRecords are ordered identically to the
Survey's Questions with no duplicates and no gaps, every question recorded
exactly once (answered or explicitly abandoned); in general the TurnRecords
are an ordered duplicate-free leading segment of the Survey's Questions,
so a mid-call hang-up drops only a tail of the question sequence. -/
theorem turn_records_cover_questions_of_completed (env : Nat → Nat → TurnEvent)
    (dial : DialResult) (qs : List Question) (m : Nat) :
    ((runCall env dial qs m).attempt.finalStatus = CallStatus.completed →
      coversQuestions qs (runCall env dial qs m).attempt) ∧
    ∃ rest, (runCall env dial qs m).attempt.turns.map TurnRecord.questionId ++ rest
        = qs.map Question.id := by
  cases dial with
  | ok =>
    have h := runQuestionsGo_spec env m qs 0
    constructor
    · intro hc
      simp [runCall] at hc ⊢
      exact h.2.1 hc
    · obtain ⟨k, hk⟩ := h.2.2.1
      refine ⟨k, ?_⟩
      simp [runCall]
      exact hk
  | noAnswer =>
    exact ⟨by intro hc; simp [runCall] at hc, ⟨qs.map Question.id, by simp [runCall]⟩⟩
  | busy =>
    exact ⟨by intro hc; simp [runCall] at hc, ⟨qs.map Question.id, by simp [runCall]⟩⟩
  | invalidNumber =>
    exact ⟨by intro hc; simp [runCall] at hc, ⟨qs.map Question.id, by simp [runCall]⟩⟩
  | providerError =>
    exact ⟨by intro hc; simp [runCall] at hc, ⟨qs.map Question.id, by simp [runCall]⟩⟩

/-- C1 counterexample: when the contact hangs up during the first question
of a one-question survey, the finalized CallAttempt is dropped with no
TurnRecords, so the question sequence is not fully covered, refuting the
claim as stated for every dispatched Contact. -/
theorem coverage_fails_on_midcall_hangup :
    ¬ coversQuestions [⟨1, "Question one"⟩]
      ((runCall (fun _ _ => TurnEvent.channelLost) DialResult.ok
        [⟨1, "Question one"⟩] 2).attempt) := by decide

/-- C1 witness: the completed scenario call covers its survey exactly. -/
theorem turn_records_cover_witness :
    coversQuestions scenarioSurvey
      (runCall scenarioEnv DialResult.ok scenarioSurvey 2).attempt :=
  (turn_records_cover_questions_of_completed scenarioEnv DialResult.ok
    scenarioSurvey 2).1 (by decide)

/-- C2: for every CallAttempt and every TurnRecord in it, the number of
clarification rounds recorded never exceeds the configured
maxClarificationRounds; on budget exhaustion the question is recorded as
abandoned and the machine advances, as built into runQuestion. -/
theorem clarification_rounds_le_max (env : Nat → Nat → TurnEvent)
    (dial : DialResult) (qs : List Question) (m : Nat) (t : TurnRecord)
    (h : t ∈ (runCall env dial qs m).attempt.turns) :
    t.clarificationRounds ≤ m := by
  cases dial with
  | ok =>
    have hs := runQuestionsGo_spec env m qs 0
    simp [runCall] at h
    exact hs.2.2.2 t h
  | noAnswer => simp [runCall] at h
  | busy => simp [runCall] at h
  | invalidNumber => simp [runCall] at h
  | providerError => simp [runCall] at h

/-- C2 witness: the abandoned third turn of the scenario call uses exactly
the budget of 2 rounds, within the bound. -/
theorem clarification_rounds_le_max_witness :
    (⟨3, [Verdict.unintelligible, Verdict.unintelligible], 2, none⟩ :
      TurnRecord).clarificationRounds ≤ 2 :=
  clarification_rounds_le_max scenarioEnv DialResult.ok scenarioSurvey 2 _ (by decide)

/-- C4: for every CallAttempt whose dial opened a channel, regardless of
which state the state machine exits from (normal completion, contact
hang-up mid-question, gateway failure, or Oracle timeout handled in-turn),
the Gateway hangUp operation appears exactly once in the gateway log. -/
theorem hangup_called_exactly_once (env : Nat → Nat → TurnEvent)
    (qs : List Question) (m : Nat) :
    hangUpCount (runCall env DialResult.ok qs m).gatewayLog = 1 := by
  have h1 := (runQuestionsGo_spec env m qs 0).1
  show hangUpCount (GatewayOp.dialOp :: GatewayOp.playOp greetingText ::
    (runQuestionsGo env m qs 0).2) = 1
  simp [hangUpCount, List.countP_cons] at h1 ⊢
  exact h1

theorem effectiveVerdict_verdict (v : Verdict) :
    effectiveVerdict (OracleOutcome.verdict v) = v := rfl

theorem effectiveVerdict_timeout :
    effectiveVerdict OracleOutcome.oracleTimeout = Verdict.unintelligible := rfl

theorem sanitizeEvent_answer (o : OracleOutcome) :
    sanitizeEvent (TurnEvent.answer o) =
      TurnEvent.answer (OracleOutcome.verdict (effectiveVerdict o)) := rfl

theorem sanitizeEvent_lost :
    sanitizeEvent TurnEvent.channelLost = TurnEvent.channelLost := rfl

theorem askLoop_sanitize (event : Nat → TurnEvent) (qid maxRounds : Nat) :
    ∀ (remaining : Nat) (prompt : String) (listenIdx : Nat) (acc : List Verdict),
      askLoop (fun i => sanitizeEvent (event i)) qid maxRounds remaining prompt
          listenIdx acc =
        askLoop event qid maxRounds remaining prompt listenIdx acc := by
  intro remaining
  induction remaining using Nat.strong_induction_on with
  | _ remaining ih =>
    intro prompt listenIdx acc
    cases remaining with
    | zero =>
      cases h : event listenIdx with
      | channelLost => simp [askLoop.eq_1, h, sanitizeEvent_answer, sanitizeEvent_lost]
      | answer o =>
        cases o with
        | oracleTimeout => simp [askLoop.eq_1, h, sanitizeEvent_answer, sanitizeEvent_lost, effectiveVerdict_verdict, effectiveVerdict_timeout]
        | verdict v =>
          cases v <;> simp [askLoop.eq_1, h, sanitizeEvent_answer, sanitizeEvent_lost, effectiveVerdict_verdict, effectiveVerdict_timeout]
    | succ n =>
      cases n with
      | zero =>
        cases h : event listenIdx with
        | channelLost => simp [askLoop.eq_2, h, sanitizeEvent_answer, sanitizeEvent_lost]
        | answer o =>
          cases o with
          | oracleTimeout =>
            simp [askLoop.eq_2, h, sanitizeEvent_answer, sanitizeEvent_lost, effectiveVerdict_verdict, effectiveVerdict_timeout]
          | verdict v =>
            cases v <;>
              simp [askLoop.eq_2, h, sanitizeEvent_answer, sanitizeEvent_lost,
                effectiveVerdict_verdict, effectiveVerdict_timeout, ih 0 (by omega)]
      | succ r =>
        cases h : event listenIdx with
        | channelLost => simp [askLoop.eq_3, h, sanitizeEvent_answer, sanitizeEvent_lost]
        | answer o =>
          cases o with
          | oracleTimeout =>
            simp [askLoop.eq_3, h, sanitizeEvent_answer, sanitizeEvent_lost,
              effectiveVerdict_verdict, effectiveVerdict_timeout, ih (r + 1) (by omega)]
          | verdict v =>
            cases v <;>
              simp [askLoop.eq_3, h, sanitizeEvent_answer, sanitizeEvent_lost,
                effectiveVerdict_verdict, effectiveVerdict_timeout, ih (r + 1) (by omega)]

theorem runQuestionsGo_sanitize (env : Nat → Nat → TurnEvent) (m : Nat) :
    ∀ (qs : List Question) (qIdx : Nat),
      runQuestionsGo (fun qi li => sanitizeEvent (env qi li)) m qs qIdx =
        runQuestionsGo env m qs qIdx := by
  intro qs
  induction qs with
  | nil => intro qIdx; rfl
  | cons q rest ihq =>
    intro qIdx
    have h1 := askLoop_sanitize (env qIdx) q.id m m q.prompt 0 []
    simp only [runQuestionsGo, runQuestion]
    rw [h1]
    simp only [ihq]

/-- C6: an OracleTimeout resolves to the Unintelligible verdict, and the
whole call state machine behaves identically whether a turn's Oracle
outcome is OracleTimeout or the Unintelligible verdict: replacing every
outcome by the verdict the machine gives it leaves every run unchanged. -/
theorem oracle_timeout_treated_as_unintelligible :
    effectiveVerdict OracleOutcome.oracleTimeout = Verdict.unintelligible ∧
    ∀ (env : Nat → Nat → TurnEvent) (dial : DialResult) (qs : List Question)
      (m : Nat),
      runCall (fun qi li => sanitizeEvent (env qi li)) dial qs m =
        runCall env dial qs m := by
  refine ⟨rfl, ?_⟩
  intro env dial qs m
  cases dial with
  | ok => simp [runCall, runQuestionsGo_sanitize env m qs 0]
  | noAnswer => rfl
  | busy => rfl
  | invalidNumber => rfl
  | providerError => rfl

/-- C7: the specification scenario: 3-question survey, Oracle returns
Accepted for Q1, NeedsClarification then Accepted for Q2, Unintelligible
twice for Q3 with round budget 2; the CallAttempt has exactly three
TurnRecords (answered with 0 rounds, answered after 1 clarification round,
abandoned at 2 rounds) and final status completed. -/
theorem scenario_three_questions :
    (runCall scenarioEnv DialResult.ok scenarioSurvey 2).attempt =
      ⟨[⟨1, [Verdict.accepted "Answer 1"], 0, some "Answer 1"⟩,
        ⟨2, [Verdict.needsClarification "Could you repeat that please?",
             Verdict.accepted "Answer 2"], 1, some "Answer 2"⟩,
        ⟨3, [Verdict.unintelligible, Verdict.unintelligible], 2, none⟩],
       CallStatus.completed⟩ := by decide

theorem countP_set_le_succ (p : ContactStatus → Bool) :
    ∀ (l : List ContactStatus) (i : Nat) (b : ContactStatus),
      (l.set i b).countP p ≤ l.countP p + 1 := by
  intro l
  induction l with
  | nil => intro i b; simp
  | cons hd tl ih =>
    intro i b
    cases i with
    | zero =>
      simp only [List.set, List.countP_cons]
      have : (if p b then 1 else 0) ≤ 1 := by split <;> omega
      omega
    | succ j =>
      simp only [List.set, List.countP_cons]
      have := ih j b
      omega

theorem countP_set_le_of_not (p : ContactStatus → Bool) :
    ∀ (l : List ContactStatus) (i : Nat) (b : ContactStatus), p b = false →
      (l.set i b).countP p ≤ l.countP p := by
  intro l
  induction l with
  | nil => intro i b _; simp
  | cons hd tl ih =>
    intro i b hb
    cases i with
    | zero =>
      simp [List.set, List.countP_cons, hb]
    | succ j =>
      simp only [List.set, List.countP_cons]
      have := ih j b hb
      omega

theorem schedStep_preserves_bound (N : Nat) (cs : List ContactStatus)
    (e : SchedEvent) (h : countInProgress cs ≤ N) :
    countInProgress (schedStep N cs e) ≤ N := by
  cases e with
  | dispatch i =>
    simp only [schedStep]
    split
    · rename_i hg
      have h2 := countP_set_le_succ (fun s => decide (s = ContactStatus.inProgress))
        cs i ContactStatus.inProgress
      have h3 := hg.2
      unfold countInProgress at *
      omega
    · exact h
  | finish i r =>
    simp only [schedStep]
    split
    · rename_i hg
      have h2 := countP_set_le_of_not (fun s => decide (s = ContactStatus.inProgress))
        cs i r (decide_eq_false hg.2)
      unfold countInProgress at *
      omega
    · exact h

/-- C3: for every pool size N and any initial contact population within the
bound (in particular all-pending submissions of M contacts with M at least
N), no sequence of scheduling and completion events ever takes more than N
Contacts into in-progress status simultaneously. -/
theorem in_progress_bounded_by_pool (N : Nat) (init : List ContactStatus)
    (h : countInProgress init ≤ N) (evs : List SchedEvent) :
    countInProgress (runSched N init evs) ≤ N := by
  induction evs generalizing init with
  | nil => exact h
  | cons e rest ih => exact ih _ (schedStep_preserves_bound N init e h)

/-- C3 witness: pool size 2 with 5 pending contacts and three dispatch
events keeps at most 2 contacts in progress. -/
theorem in_progress_bounded_by_pool_witness :
    countInProgress (runSched 2
      [ContactStatus.pending, ContactStatus.pending, ContactStatus.pending,
       ContactStatus.pending, ContactStatus.pending]
      [SchedEvent.dispatch 0, SchedEvent.dispatch 1, SchedEvent.dispatch 2]) ≤ 2 :=
  in_progress_bounded_by_pool 2 _ (by decide) _

theorem retryStep_inv (maxA : Nat) (c : ContactState) (o : AttemptOutcome)
    (h1 : c.attemptsMade ≤ maxA)
    (h2 : c.status = ContactStatus.failed → c.attemptsMade = maxA) :
    (retryStep maxA c o).attemptsMade ≤ maxA ∧
      ((retryStep maxA c o).status = ContactStatus.failed →
        (retryStep maxA c o).attemptsMade = maxA) := by
  unfold retryStep
  split
  · rename_i hg
    have hlt := hg.2
    cases o with
    | success =>
      constructor
      · show c.attemptsMade + 1 ≤ maxA
        omega
      · intro hc
        simp at hc
    | invalidNumber =>
      constructor
      · show c.attemptsMade + 1 ≤ maxA
        omega
      · intro hc
        simp at hc
    | transient =>
      show (if c.attemptsMade + 1 < maxA then
          (⟨ContactStatus.pending, c.attemptsMade + 1⟩ : ContactState)
        else ⟨ContactStatus.failed, c.attemptsMade + 1⟩).attemptsMade ≤ maxA ∧ _
      rcases Nat.lt_or_ge (c.attemptsMade + 1) maxA with hif | hif
      · rw [if_pos hif]
        exact ⟨by show c.attemptsMade + 1 ≤ maxA; omega, by intro hc; simp at hc⟩
      · rw [if_neg (Nat.not_lt.mpr hif)]
        exact ⟨by show c.attemptsMade + 1 ≤ maxA; omega,
          by intro _; show c.attemptsMade + 1 = maxA; omega⟩
  · exact ⟨h1, h2⟩

theorem retryStep_frozen (maxA : Nat) (c : ContactState) (o : AttemptOutcome)
    (h : c.status ≠ ContactStatus.pending) : retryStep maxA c o = c := by
  unfold retryStep
  split
  · rename_i hg
    exact absurd hg.1 h
  · rfl

theorem foldl_retry_frozen (maxA : Nat) (c : ContactState)
    (h : c.status ≠ ContactStatus.pending) :
    ∀ l : List AttemptOutcome, l.foldl (retryStep maxA) c = c := by
  intro l
  induction l with
  | nil => rfl
  | cons o rest ih =>
    show rest.foldl (retryStep maxA) (retryStep maxA c o) = c
    rw [retryStep_frozen maxA c o h]
    exact ih

/-- C5: for every Contact, the number of attempts never exceeds the
configured maxCallAttempts; once the retry budget is exhausted the status
is the terminal value failed (reached exactly at maxCallAttempts attempts)
and further outcomes never change the Contact again: it is never
re-queued. -/
theorem retry_budget_respected (maxA : Nat) (outs : List AttemptOutcome) :
    (runRetries maxA outs).attemptsMade ≤ maxA ∧
    ((runRetries maxA outs).status = ContactStatus.failed →
      ∀ more, runRetries maxA (outs ++ more) = runRetries maxA outs) ∧
    ((runRetries maxA outs).status = ContactStatus.failed →
      (runRetries maxA outs).attemptsMade = maxA) := by
  have key : ∀ (l : List AttemptOutcome) (c : ContactState),
      c.attemptsMade ≤ maxA →
      (c.status = ContactStatus.failed → c.attemptsMade = maxA) →
      (l.foldl (retryStep maxA) c).attemptsMade ≤ maxA ∧
        ((l.foldl (retryStep maxA) c).status = ContactStatus.failed →
          (l.foldl (retryStep maxA) c).attemptsMade = maxA) := by
    intro l
    induction l with
    | nil => intro c h1 h2; exact ⟨h1, h2⟩
    | cons o rest ih =>
      intro c h1 h2
      have hstep := retryStep_inv maxA c o h1 h2
      exact ih _ hstep.1 hstep.2
  have hmain := key outs initialContact (by simp [initialContact])
    (by simp [initialContact])
  refine ⟨hmain.1, ?_, hmain.2⟩
  intro hf more
  show (outs ++ more).foldl (retryStep maxA) initialContact = runRetries maxA outs
  rw [List.foldl_append]
  exact foldl_retry_frozen maxA _
    (by show (runRetries maxA outs).status ≠ ContactStatus.pending
        rw [hf]
        simp) more

/-- C5 witness: with maxCallAttempts 2 and two transient failures the
contact is failed at exactly 2 attempts and a further outcome leaves it
unchanged. -/
theorem retry_budget_respected_witness :
    (runRetries 2 [AttemptOutcome.transient, AttemptOutcome.transient]).attemptsMade ≤ 2 ∧
    runRetries 2 ([AttemptOutcome.transient, AttemptOutcome.transient] ++
        [AttemptOutcome.success]) =
      runRetries 2 [AttemptOutcome.transient, AttemptOutcome.transient] ∧
    (runRetries 2 [AttemptOutcome.transient, AttemptOutcome.transient]).attemptsMade = 2 :=
  ⟨(retry_budget_respected 2 _).1,
   (retry_budget_respected 2 _).2.1 (by decide) _,
   (retry_budget_respected 2 _).2.2 (by decide)⟩

/-- C8: whenever the dashboard stats GET request throws, the query function
returns the fixed mockStats object (totalSurveys 12, activeSurveys 5,
totalContacts 1250, completedCalls 890, responseRate 71.2, three hard-coded
recentActivity entries) instead of propagating the error, and on success it
returns the response data, so the Dashboard always receives a defined
DashboardStats value. -/
theorem dashboard_query_falls_back_to_mock (e : String) :
    dashboardStatsQuery (Except.error e) = mockStats ∧
    mockStats.totalSurveys = 12 ∧ mockStats.activeSurveys = 5 ∧
    mockStats.totalContacts = 1250 ∧ mockStats.completedCalls = 890 ∧
    mockStats.responseRate = 71.2 ∧ mockStats.recentActivity.length = 3 ∧
    ∀ d, dashboardStatsQuery (Except.ok d) = d :=
  ⟨rfl, rfl, rfl, rfl, rfl, rfl, rfl, fun _ => rfl⟩

/-- C9: on a successful login POST the access token of the response is
stored under the access-token key and the router navigates to the home
route; on a thrown POST the stored token is unchanged and only an error
toast is shown; in both cases isLoading ends false. -/
theorem login_submit_effects (stored : Option String) (r : LoginResponse)
    (e : Option String) :
    onSubmit stored (Except.ok r) =
      ⟨some r.access_token, some "/", [ToastMsg.success "Login successful!"],
       false⟩ ∧
    onSubmit stored (Except.error e) =
      ⟨stored, none, [ToastMsg.error (e.getD "Login failed. Please try again.")],
       false⟩ :=
  ⟨rfl, rfl⟩

/-- C10: when the Dashboard mounts with no stored access token, the mount
effect redirects to /login and isAuthenticated stays false, so only the
Loading placeholder renders; the dashboard content is reachable only when
a token is present. -/
theorem unauthenticated_dashboard_redirects :
    dashboardMountEffect none = ⟨false, some "/login"⟩ ∧
    dashboardRender false = DashboardView.loadingPlaceholder ∧
    ∀ token, dashboardRender (dashboardMountEffect token).isAuthenticated =
        DashboardView.dashboardContent → token.isSome = true := by
  refine ⟨rfl, rfl, ?_⟩
  intro token h
  cases token with
  | none => simp [dashboardMountEffect, dashboardRender] at h
  | some t => rfl

/-- C10 witness: with a token present the dashboard content renders, and
the theorem forces the token to be present. -/
theorem unauthenticated_dashboard_redirects_witness :
    (some "token").isSome = true :=
  unauthenticated_dashboard_redirects.2.2 (some "token") rfl
